import Mathlib

/-!
Verification development for the ts-sqlite-datastore library
(src/sqlite-datastore.ts). The definitions below are a shallow embedding
of the runtime behaviour of that single-file datastore: JavaScript values
become an inductive JsValue, JS objects become ordered association lists,
the custom-type registry becomes a lookup function, and each method of
SqliteDatastore that builds SQL text or transforms records is translated
into an executable Lean function. Fallible code returns Except DsError.
The theorems at the end of the file settle the specification claims
against these definitions.
-/

namespace TsSqliteDatastore

/-! ## JavaScript value model -/

/-- A JavaScript value as the datastore manipulates one: undefined, null,
a string, an integer-valued number, or a Date object (carried as its ISO
string). -/
inductive JsValue where
  | jsUndefined
  | vnull
  | str (s : String)
  | num (n : Int)
  | date (s : String)
  deriving DecidableEq, Repr

/-- A JavaScript object as an ordered association list of own properties,
matching the enumeration order of Object.keys and Object.entries. -/
abbrev JsRecord := List (String × JsValue)

/-- Property read: record[k] evaluates to undefined when k is absent. -/
def getProp (r : JsRecord) (k : String) : JsValue :=
  match r.find? (fun p => p.1 == k) with
  | some p => p.2
  | none => .jsUndefined

/-- Property write with JS object semantics: an existing key keeps its
position, a new key is appended at the end of the enumeration order. -/
def setProp : JsRecord → String → JsValue → JsRecord
  | [], k, v => [(k, v)]
  | (k0, v0) :: rest, k, v =>
      if k0 == k then (k0, v) :: rest else (k0, v0) :: setProp rest k v

/-- The JS loose test value == null, true exactly for null and undefined. -/
def isNullish : JsValue → Bool
  | .jsUndefined => true
  | .vnull => true
  | _ => false

/-- The JS String(value) coercion, restricted to the values of the model. -/
def jsStringOf : JsValue → String
  | .str s => s
  | .num n => toString n
  | .vnull => "null"
  | .jsUndefined => "undefined"
  | .date s => s

/-- Embedding of new Date(value) applied to a raw TEXT cell coming back
from the database. -/
def jsNewDate : JsValue → JsValue
  | .str s => .date s
  | _ => .date "Invalid Date"

/-! ## Errors

The error classes of the library that the embedded code paths can raise. -/

inductive DsError where
  | insertFailure (msg : String)
  | updateFailure (msg : String)
  | invalidSchema (msg : String)
  | invalidUuid
  deriving DecidableEq, Repr

deriving instance DecidableEq for Except

/-- Sources of nondeterminism captured as an environment: the current time
as an ISO string (new Date().toISOString()) and the next value of
crypto.randomUUID(). -/
structure Env where
  nowIso : String
  freshUuid : String

/-! ## UUID validation (the UUID_REGEX test) -/

def isHexDigit (c : Char) : Bool :=
  c.isDigit || ('a' ≤ c && c ≤ 'f') || ('A' ≤ c && c ≤ 'F')

/-- Splitting a character list on a separator, with the semantics of the
JS String.split: empty groups are kept. -/
def splitOnChar (sep : Char) : List Char → List (List Char)
  | [] => [[]]
  | c :: rest =>
      let r := splitOnChar sep rest
      if c = sep then [] :: r
      else
        match r with
        | g :: gs => (c :: g) :: gs
        | [] => [[c]]

/-- The anchored, case-insensitive UUID regular expression of the source:
five hyphen-separated groups of hex digits with lengths 8, 4, 4, 4, 12. -/
def isUuid (s : String) : Bool :=
  match splitOnChar '-' s.data with
  | [a, b, c, d, e] =>
      a.length == 8 && b.length == 4 && c.length == 4 && d.length == 4 &&
      e.length == 12 && (a ++ b ++ c ++ d ++ e).all isHexDigit
  | _ => false

/-! ## Column schema model

A raw column declaration is a bare type-name string or a detailed object.
The lifecycle hooks installed by the custom-type registry are a closed
enumeration interpreted against an Env. -/

inductive Hook where
  | uuidOnInsert
  | uuidOnUpdate
  | insertTsOnInsert
  | insertTsOnUpdate
  | updateTsOnInsert
  | updateTsOnUpdate
  deriving DecidableEq, Repr

/-- A detailed column schema object. Option encodes property presence:
none models a property that is absent from the JS object. autoIncrement
defaults to false, matching the truthiness test the source applies. -/
structure ColumnObj where
  type : String
  autoIncrement : Bool := false
  nullable : Option Bool := none
  unique : Option Bool := none
  defaultValue : Option JsValue := none
  serialize : Option (JsValue → JsValue) := none
  parse : Option (JsValue → JsValue) := none
  beforeInsert : Option Hook := none
  beforeUpdate : Option Hook := none

inductive ColumnDecl where
  | name (s : String)
  | obj (o : ColumnObj)

inductive PrimaryKey where
  | single (s : String)
  | multi (l : List String)

/-- A table schema: columns in declaration order, and the primaryKey
property when present. -/
structure TableSchemaE where
  columns : List (String × ColumnDecl)
  primaryKey : Option PrimaryKey := none

structure SchemaE where
  tables : List (String × TableSchemaE)

/-! ## The custom-type registry (CUSTOM_TYPES) and SQLITE_TYPES -/

def isSqliteNativeType (s : String) : Bool :=
  s == "TEXT" || s == "BLOB" || s == "INTEGER" || s == "REAL"

def uuidTypeDef : ColumnObj :=
  { type := "TEXT", nullable := some false, unique := some true,
    beforeInsert := some .uuidOnInsert, beforeUpdate := some .uuidOnUpdate,
    parse := some (fun v => v) }

def insertTimestampTypeDef : ColumnObj :=
  { type := "TEXT", nullable := some false, unique := some false,
    beforeInsert := some .insertTsOnInsert,
    beforeUpdate := some .insertTsOnUpdate,
    parse := some jsNewDate }

def updateTimestampTypeDef : ColumnObj :=
  { type := "TEXT", nullable := some false, unique := some false,
    beforeInsert := some .updateTsOnInsert,
    beforeUpdate := some .updateTsOnUpdate,
    parse := some jsNewDate }

/-- Registry lookup: name in CUSTOM_TYPES. -/
def customTypeDef? (s : String) : Option ColumnObj :=
  if s == "uuid" then some uuidTypeDef
  else if s == "insert_timestamp" then some insertTimestampTypeDef
  else if s == "update_timestamp" then some updateTimestampTypeDef
  else none

/-- Interpretation of the registry lifecycle hooks, translated from the
beforeInsert and beforeUpdate closures of CUSTOM_TYPES. -/
def runHook (env : Env) (h : Hook) (r : JsRecord) (c : String) :
    Except DsError JsRecord :=
  match h with
  | .uuidOnInsert =>
      if isNullish (getProp r c) then .ok (setProp r c (.str env.freshUuid))
      else if isUuid (jsStringOf (getProp r c)) then .ok r
      else .error .invalidUuid
  | .uuidOnUpdate =>
      if isNullish (getProp r c) then .ok r
      else if isUuid (jsStringOf (getProp r c)) then .ok r
      else .error .invalidUuid
  | .insertTsOnInsert =>
      if isNullish (getProp r c) then .ok (setProp r c (.str env.nowIso))
      else .error (.insertFailure
        "Specifying a value for an insert_timestamp column is not allowed")
  | .insertTsOnUpdate =>
      if isNullish (getProp r c) then .ok r
      else .error (.updateFailure
        "Specifying a value for an insert_timestamp column is not allowed")
  | .updateTsOnInsert =>
      if isNullish (getProp r c) then .ok (setProp r c (.str env.nowIso))
      else .error (.insertFailure
        "Specifying a value for an update_timestamp column is not allowed")
  | .updateTsOnUpdate =>
      if isNullish (getProp r c) then .ok (setProp r c (.str env.nowIso))
      else .error (.updateFailure
        "Specifying a value for an update_timestamp column is not allowed")

/-! ## Column resolution -/

/-- SqliteDatastore.resolveColumnSchema: a bare string is looked up first
in CUSTOM_TYPES, then in SQLITE_TYPES; a detailed object is returned
unchanged; anything else raises InvalidSchemaError. -/
def resolveColumnSchema : ColumnDecl → Except DsError ColumnObj
  | .name s =>
      match customTypeDef? s with
      | some d => .ok d
      | none =>
          if isSqliteNativeType s then .ok { type := s }
          else .error (.invalidSchema ("Invalid column type: " ++ s))
  | .obj o => .ok o

/-- The hook resolveBeforeInsertHook settles on: a registry hook when the
resolved schema carries a beforeInsert property, else the synthetic
defaultBeforeInsert when a non-null defaultValue or a serialize property
is present, else nothing. -/
inductive ResolvedHook where
  | registry (h : Hook)
  | defaulted
  deriving Repr

/-- SqliteDatastore.resolveBeforeInsertHook on a resolved column schema. -/
def resolveBeforeInsertHook (o : ColumnObj) : Option ResolvedHook :=
  match o.beforeInsert with
  | some h => some (.registry h)
  | none =>
      let hasDefaultValue :=
        o.defaultValue.isSome && !isNullish (o.defaultValue.getD .jsUndefined)
      let hasCustomSerialization := o.serialize.isSome
      if hasDefaultValue || hasCustomSerialization then some .defaulted
      else none

/-- SqliteDatastore.defaultBeforeInsert: populate the default value when
the record holds null or undefined, then apply the custom serializer when
one is declared. -/
def defaultBeforeInsert (r : JsRecord) (c : String) (o : ColumnObj) :
    JsRecord :=
  let v0 := getProp r c
  let p :=
    if isNullish v0 then
      match o.defaultValue with
      | some d => (d, setProp r c d)
      | none => (v0, r)
    else (v0, r)
  match o.serialize with
  | some f => setProp p.2 c (f p.1)
  | none => p.2

/-- SqliteDatastore.defaultBeforeUpdate: apply the custom serializer when
one is declared. -/
def defaultBeforeUpdate (r : JsRecord) (c : String) (o : ColumnObj) :
    JsRecord :=
  match o.serialize with
  | some f => setProp r c (f (getProp r c))
  | none => r

/-- One step of the beforeInsert pipeline for a column. -/
def applyInsertHook (env : Env) (rh : ResolvedHook) (r : JsRecord)
    (c : String) (o : ColumnObj) : Except DsError JsRecord :=
  match rh with
  | .registry h => runHook env h r c
  | .defaulted => .ok (defaultBeforeInsert r c o)

/-! ## The insert pipeline (getRecordsForInsert and insert) -/

/-- SQL identifier quoting as the source performs it by interpolation. -/
def quoteIdent (s : String) : String := "\"" ++ s ++ "\""

/-- JS Array.prototype.join with a separator string. -/
def joinWith (sep : String) : List String → String
  | [] => ""
  | [x] => x
  | x :: xs => x ++ sep ++ joinWith sep xs

/-- The unknown-column validation that getRecordsForInsert applies to
each record: the first key that is not a schema column raises InsertError
naming the column and the table. -/
def checkRecordKeys (t : String) (cols : List String) :
    List String → Except DsError Unit
  | [] => .ok ()
  | k :: rest =>
      if cols.contains k then checkRecordKeys t cols rest
      else .error (.insertFailure
        ("Column '" ++ k ++ "' not found on table '" ++ t ++ "'"))

/-- The freshly allocated working copy of one input record: one property
per schema column, in schema declaration order, absent inputs becoming
undefined. -/
def projectRecord (cols : List String) (r : JsRecord) : JsRecord :=
  cols.map (fun c => (c, getProp r c))

/-- The ordered list of (column, resolved schema, hook) triples that
getRecordsForInsert builds across the whole table schema. -/
def buildInsertHooks :
    List (String × ColumnDecl) →
    Except DsError (List (String × ColumnObj × ResolvedHook))
  | [] => .ok []
  | (c, d) :: rest =>
      match resolveColumnSchema d with
      | .error e => .error e
      | .ok o =>
          match buildInsertHooks rest with
          | .error e => .error e
          | .ok tail =>
              match resolveBeforeInsertHook o with
              | some rh => .ok ((c, o, rh) :: tail)
              | none => .ok tail

/-- Firing the collected beforeInsert hooks on a working copy, in schema
column order. -/
def applyInsertHooks (env : Env) :
    List (String × ColumnObj × ResolvedHook) → JsRecord →
    Except DsError JsRecord
  | [], r => .ok r
  | (c, o, rh) :: rest, r =>
      match applyInsertHook env rh r c o with
      | .error e => .error e
      | .ok r1 => applyInsertHooks env rest r1

/-- The per-record body of getRecordsForInsert, over the input records in
order; the first raised error aborts the whole mapping. -/
def processInsertRecords (env : Env) (t : String) (cols : List String)
    (hooks : List (String × ColumnObj × ResolvedHook)) :
    List JsRecord → Except DsError (List JsRecord)
  | [] => .ok []
  | r :: rest =>
      match checkRecordKeys t cols (r.map Prod.fst) with
      | .error e => .error e
      | .ok _ =>
          match applyInsertHooks env hooks (projectRecord cols r) with
          | .error e => .error e
          | .ok nr =>
              match processInsertRecords env t cols hooks rest with
              | .error e => .error e
              | .ok tail => .ok (nr :: tail)

structure InsertPrep where
  records : List JsRecord
  columnNames : List String
  deriving DecidableEq, Repr

/-- SqliteDatastore.getRecordsForInsert: the column list is the set of
all schema column names in declaration order, and every record is
replaced by a hook-processed fresh copy over exactly those columns. -/
def getRecordsForInsert (env : Env) (t : String) (schema : TableSchemaE)
    (records : List JsRecord) : Except DsError InsertPrep :=
  match buildInsertHooks schema.columns with
  | .error e => .error e
  | .ok hooks =>
      match processInsertRecords env t (schema.columns.map Prod.fst) hooks
          records with
      | .error e => .error e
      | .ok recs =>
          .ok { records := recs, columnNames := schema.columns.map Prod.fst }

/-- The INSERT statement text the insert method prepares once per call. -/
def insertSqlFor (t : String) (cols : List String) : String :=
  "INSERT INTO " ++ quoteIdent t ++ " (" ++
    joinWith "," (cols.map quoteIdent) ++ ") VALUES (" ++
    joinWith "," (cols.map (fun _ => "?")) ++ ")"

structure InsertPlan where
  sql : String
  paramsPerRecord : List (List JsValue)
  deriving DecidableEq, Repr

/-- The prepared statement text together with the positional parameter
list of each execution, as the insert method produces them. -/
def insertPlanOf (env : Env) (t : String) (schema : TableSchemaE)
    (records : List JsRecord) : Except DsError InsertPlan :=
  match getRecordsForInsert env t schema records with
  | .error e => .error e
  | .ok prep =>
      .ok { sql := insertSqlFor t prep.columnNames,
            paramsPerRecord :=
              prep.records.map (fun r => prep.columnNames.map (getProp r)) }

/-- The value the insert method resolves with. ids is an Option so that
the presence of the ids field on the runtime object is itself modelled:
none would be an object without the field. -/
structure InsertResultObj where
  count : Nat
  ids : Option (List Int)
  deriving DecidableEq, Repr

/-- One accumulation step of the insert reduce loop: count increments,
and a positive lastID is pushed onto ids when the field is present. -/
def insertResultStep (res : InsertResultObj) (lastID : Int) :
    InsertResultObj :=
  { count := res.count + 1,
    ids :=
      match res.ids with
      | some l => if lastID > 0 then some (l ++ [lastID]) else some l
      | none => none }

/-- The reduce loop of the insert method over the lastID reported by the
engine for each executed record, started from the literal
with count 0 and an empty ids array. -/
def runInsertAccumulation (lastIDs : List Int) : InsertResultObj :=
  lastIDs.foldl insertResultStep { count := 0, ids := some [] }

/-- Whether any column declaration of the table carries autoIncrement,
the property the HasAutoIncrementingColumn type inspects. -/
def declAutoIncrement : ColumnDecl → Bool
  | .obj o => o.autoIncrement
  | .name _ => false

def tableHasAutoIncrementColumn (s : TableSchemaE) : Bool :=
  s.columns.any (fun cd => declAutoIncrement cd.2)

/-! ## The criteria compiler (buildWhereClause) -/

/-- An operator object of a criteria entry: each recognized operator key
may be present with an operand. -/
structure OpObj where
  eq : Option JsValue := none
  neq : Option JsValue := none
  gt : Option JsValue := none
  gte : Option JsValue := none
  lt : Option JsValue := none
  lte : Option JsValue := none
  like : Option JsValue := none
  deriving DecidableEq, Repr

/-- The value of one criteria entry, partitioned the way the compiler
dynamically dispatches: an array, an operator object, or a primitive
(null and undefined included). -/
inductive CritValue where
  | arr (vs : List JsValue)
  | opObj (o : OpObj)
  | prim (v : JsValue)
  deriving DecidableEq, Repr

abbrev CriteriaE := List (String × CritValue)

/-- The recognized operator keys of an operator object in the iteration
order of OPERATOR_MAP, paired with their SQL operators and operands. -/
def opEntries (o : OpObj) : List (String × JsValue) :=
  (match o.eq with | some v => [("=", v)] | none => []) ++
  (match o.neq with | some v => [("!=", v)] | none => []) ++
  (match o.gt with | some v => [(">", v)] | none => []) ++
  (match o.gte with | some v => [(">=", v)] | none => []) ++
  (match o.lt with | some v => [("<", v)] | none => []) ++
  (match o.lte with | some v => [("<=", v)] | none => []) ++
  (match o.like with | some v => [("LIKE", v)] | none => [])

/-- One step of the criteria reduce: the entry pushes its fragments onto
the accumulated fragment list and its operands onto the accumulated
parameter list. -/
def critStep (c : String) (v : CritValue) (acc : List String × List JsValue) :
    List String × List JsValue :=
  match v with
  | .arr vs =>
      (acc.1 ++ ["(" ++ quoteIdent c ++ " IN (" ++
         joinWith "," (vs.map (fun _ => "?")) ++ "))"],
       acc.2 ++ vs)
  | .prim v =>
      if isNullish v then
        (acc.1 ++ ["(" ++ quoteIdent c ++ " IS NULL)"], acc.2)
      else
        (acc.1 ++ ["(" ++ quoteIdent c ++ " = ?)"], acc.2 ++ [v])
  | .opObj o =>
      (opEntries o).foldl
        (fun a p =>
          (a.1 ++ ["(" ++ quoteIdent c ++ " " ++ p.1 ++ " ?)"],
           a.2 ++ [p.2]))
        acc

/-- The inner buildCriteriaSql function: the reduce over the entries of
the criteria object, fragments joined by AND. -/
def buildCriteriaSql (criteria : Option CriteriaE) : String × List JsValue :=
  match criteria with
  | none => ("", [])
  | some entries =>
      let res := entries.foldl (fun acc p => critStep p.1 p.2 acc) ([], [])
      (joinWith " AND " res.1, res.2)

/-- SqliteDatastore.buildWhereClause: prefix a nonempty criteria clause
with the WHERE keyword, else return the empty clause and no parameters. -/
def buildWhereClause (criteria : Option CriteriaE) : String × List JsValue :=
  let res := buildCriteriaSql criteria
  if res.1.length > 0 then ("WHERE " ++ res.1, res.2) else ("", [])

/-! ## The DDL generator (createTable) -/

/-- The per-column primary-key test of createTable: membership when
primaryKey is an array, equality when it is a single name, and the
implicit id default when the property is absent. -/
def isPrimaryKeyCol (schema : TableSchemaE) (c : String) : Bool :=
  match schema.primaryKey with
  | some (.multi l) => l.contains c
  | some (.single s) => s == c
  | none => c == "id"

/-- ASCII upper-casing, the effect String.prototype.toUpperCase has on
the type names involved. -/
def asciiUpperChar (c : Char) : Char :=
  if 'a' ≤ c && c ≤ 'z' then Char.ofNat (c.toNat - 32) else c

def asciiUpper (s : String) : String :=
  String.mk (s.data.map asciiUpperChar)

/-- SqliteDatastore.isValidColumnType. -/
def isValidColumnType (ty : String) : Bool :=
  isSqliteNativeType (asciiUpper ty) || (customTypeDef? ty).isSome

/-- The InvalidSchemaError message for an auto-increment column outside
the primary key, exactly as the source interpolates it. -/
def autoIncErrorMessage (c t : String) : String :=
  "Column '" ++ c ++ "' in table '" ++ t ++
    "' is marked as auto-incrementing but is not part of the table's primary key."

/-- The InvalidSchemaError message for an invalid column type. -/
def invalidTypeMessage (ty c t : String) : String :=
  "Invalid type '" ++ ty ++ "' for column '" ++ c ++ "' in table '" ++ t ++ "'"

/-- One column clause of the CREATE TABLE statement, with the two
validation errors createTable raises while building it. -/
def columnDefinitionSql (t : String) (schema : TableSchemaE) (c : String)
    (d : ColumnDecl) : Except DsError String :=
  match resolveColumnSchema d with
  | .error e => .error e
  | .ok o =>
  if !isValidColumnType o.type then
    .error (.invalidSchema (invalidTypeMessage o.type c t))
  else
    let isPK := isPrimaryKeyCol schema c
    let autoInc := o.autoIncrement
    let nullable := (o.nullable.getD false)
    let uniq := (o.unique.getD false)
    if autoInc && !isPK then
      .error (.invalidSchema (autoIncErrorMessage c t))
    else
      .ok (joinWith " "
        (([some (quoteIdent c), some o.type,
           if isPK then some "PRIMARY KEY" else none,
           if autoInc then some "AUTOINCREMENT" else none,
           some (if nullable then "NULL" else "NOT NULL"),
           if autoInc || uniq then some "UNIQUE" else none] :
          List (Option String)).filterMap id))

/-- The column clauses of a table, in declaration order, first error
aborting. -/
def createTableColumnDefs (t : String) (schema : TableSchemaE) :
    List (String × ColumnDecl) → Except DsError (List String)
  | [] => .ok []
  | p :: rest =>
      match columnDefinitionSql t schema p.1 p.2 with
      | .error e => .error e
      | .ok s =>
          match createTableColumnDefs t schema rest with
          | .error e => .error e
          | .ok tail => .ok (s :: tail)

/-- SqliteDatastore.createTable, as the DDL text it executes. -/
def createTableSql (t : String) (schema : TableSchemaE) :
    Except DsError String :=
  match createTableColumnDefs t schema schema.columns with
  | .error e => .error e
  | .ok defs =>
      .ok ("CREATE TABLE IF NOT EXISTS " ++ quoteIdent t ++ " (" ++
        joinWith ", " defs ++ ")")

/-- The table-creation loop of migrateIfNeeded: one createTable per
schema table, in declaration order. -/
def migrateSchema : List (String × TableSchemaE) →
    Except DsError (List String)
  | [] => .ok []
  | p :: rest =>
      match createTableSql p.1 p.2 with
      | .error e => .error e
      | .ok s =>
          match migrateSchema rest with
          | .error e => .error e
          | .ok tail => .ok (s :: tail)

/-- A datastore instance right after construction: the constructor stores
the schema and the migrated flag untouched and performs no validation. -/
structure DatastoreState where
  schema : SchemaE
  migrated : Bool

def mkDatastore (s : SchemaE) : DatastoreState :=
  { schema := s, migrated := false }

/-! ## The update pipeline (getValuesForUpdate) -/

/-- Schema lookup tableSchema.columns[c]. -/
def columnDeclFor (schema : TableSchemaE) (c : String) : Option ColumnDecl :=
  (schema.columns.find? (fun p => p.1 == c)).map Prod.snd

/-- The first pass of getValuesForUpdate: validate each set key against
the schema and copy its value into the values object. -/
def copySetValues (schema : TableSchemaE) (set : JsRecord) :
    List String → JsRecord → Except DsError JsRecord
  | [], vals => .ok vals
  | c :: rest, vals =>
      match columnDeclFor schema c with
      | none => .error (.updateFailure ("Invalid column name: \"" ++ c ++ "\""))
      | some _ => copySetValues schema set rest (setProp vals c (getProp set c))

/-- The second pass of getValuesForUpdate for one column name: run the
registry beforeUpdate hook when the resolved schema has one, else the
synthetic defaultBeforeUpdate when it has a serialize property. -/
def applyUpdateHookForColumn (env : Env) (schema : TableSchemaE)
    (vals : JsRecord) (c : String) : Except DsError JsRecord :=
  match columnDeclFor schema c with
  | none => .ok vals
  | some d =>
      match resolveColumnSchema d with
      | .error e => .error e
      | .ok o =>
      match o.beforeUpdate with
      | some h => runHook env h vals c
      | none =>
          if o.serialize.isSome then .ok (defaultBeforeUpdate vals c o)
          else .ok vals

/-- The beforeUpdate loop of getValuesForUpdate over the set column
names. -/
def applyUpdateHooks (env : Env) (schema : TableSchemaE) :
    List String → JsRecord → Except DsError JsRecord
  | [], vals => .ok vals
  | c :: rest, vals =>
      match applyUpdateHookForColumn env schema vals c with
      | .error e => .error e
      | .ok v1 => applyUpdateHooks env schema rest v1

/-- SqliteDatastore.getValuesForUpdate: both passes iterate only the
column names present in the set object. -/
def getValuesForUpdate (env : Env) (schema : TableSchemaE)
    (set : JsRecord) : Except DsError JsRecord :=
  match copySetValues schema set (set.map Prod.fst) [] with
  | .error e => .error e
  | .ok values => applyUpdateHooks env schema (set.map Prod.fst) values

/-! ## The delete pipeline -/

/-- The runtime options object of a delete call: Option models property
presence for the where criteria and the all flag. -/
structure DeleteOptionsE where
  whereCriteria : Option CriteriaE := none
  allFlag : Option Bool := none

/-- SqliteDatastore.delete as the SQL text and parameters it hands to the
engine: the where clause is compiled when the where property is present,
and no other inspection of the options happens before execution. -/
def deleteBuild (opts : DeleteOptionsE) (t : String) :
    Except DsError (String × List JsValue) :=
  let base := "DELETE FROM " ++ quoteIdent t
  let wc :=
    match opts.whereCriteria with
    | some c => buildWhereClause (some c)
    | none => ("", [])
  if wc.1.length > 0 then .ok (base ++ " " ++ wc.1, wc.2)
  else .ok (base, [])

/-! ## Row parsing on select -/

/-- The per-cell parse dispatch of parseRow: a bare custom-type name is
swapped for its registry entry, then a parse property on an object schema
is applied; everything else passes through. -/
def parseCell (schema : TableSchemaE) (c : String) (v : JsValue) : JsValue :=
  match columnDeclFor schema c with
  | none => v
  | some (.name s) =>
      match customTypeDef? s with
      | some td =>
          match td.parse with
          | some p => p v
          | none => v
      | none => v
  | some (.obj o) =>
      match o.parse with
      | some p => p v
      | none => v

/-- SqliteDatastore.parseRow over the entries of a returned row. -/
def parseRow (schema : TableSchemaE) (row : JsRecord) : JsRecord :=
  row.map (fun p => (p.1, parseCell schema p.1 p.2))

/-! ## A reference-and-heap rendering of getRecordsForInsert

JavaScript records are mutable objects reached through references. To
state the frame property that the caller-supplied records survive an
insert unchanged, the same getRecordsForInsert is rendered once more with
the object store made explicit: a heap of records addressed by index, input
records given as addresses, the working copy allocated at a fresh address
and every hook write going through that address. -/

abbrev Heap := List JsRecord

def heapRead : Heap → Nat → JsRecord
  | [], _ => []
  | r :: _, 0 => r
  | _ :: rest, n + 1 => heapRead rest n

def heapWrite : Heap → Nat → JsRecord → Heap
  | [], _, _ => []
  | _ :: rest, 0, r => r :: rest
  | x :: rest, n + 1, r => x :: heapWrite rest n r

/-- The hook pipeline acting on the working copy through its address. -/
def applyInsertHooksH (env : Env) :
    List (String × ColumnObj × ResolvedHook) → Heap → Nat →
    Except DsError Heap
  | [], h, _ => .ok h
  | (c, o, rh) :: rest, h, a =>
      match applyInsertHook env rh (heapRead h a) c o with
      | .error e => .error e
      | .ok r1 => applyInsertHooksH env rest (heapWrite h a r1) a

/-- getRecordsForInsert with the object store explicit: each input
address is read, validated, copied into a record allocated at the end of
the heap, and the hooks run against the fresh address; the returned
addresses are those of the copies. -/
def processInsertRecordsH (env : Env) (t : String) (cols : List String)
    (hooks : List (String × ColumnObj × ResolvedHook)) :
    Heap → List Nat → Except DsError (Heap × List Nat)
  | h, [] => .ok (h, [])
  | h, a :: rest =>
      match checkRecordKeys t cols ((heapRead h a).map Prod.fst) with
      | .error e => .error e
      | .ok _ =>
          match applyInsertHooksH env hooks
              (h ++ [projectRecord cols (heapRead h a)]) h.length with
          | .error e => .error e
          | .ok h2 =>
              match processInsertRecordsH env t cols hooks h2 rest with
              | .error e => .error e
              | .ok pr => .ok (pr.1, h.length :: pr.2)

/-- getRecordsForInsert over the explicit object store: hooks built once
across the schema, then each input record processed through a fresh
address. -/
def getRecordsForInsertH (env : Env) (t : String) (schema : TableSchemaE)
    (h : Heap) (addrs : List Nat) : Except DsError (Heap × List Nat) :=
  match buildInsertHooks schema.columns with
  | .error e => .error e
  | .ok hooks =>
      processInsertRecordsH env t (schema.columns.map Prod.fst) hooks h addrs

/-! ## Specification-side definitions

The functions below are written from the wording of the claims being
checked, to be compared with the embedded code; they are not translations
of the source. -/

/-- Claim C3 wording: the required columns of a table are those that are
non-nullable and carry no default value, read off the resolved column
descriptors. -/
def requiredColumnsClaim (schema : TableSchemaE) : List String :=
  schema.columns.filterMap (fun p =>
    match resolveColumnSchema p.2 with
    | .ok o =>
        if !(o.nullable.getD false) && o.defaultValue.isNone then some p.1
        else none
    | .error _ => none)

/-- Claim C3 wording: the columns referenced by at least one input
record. -/
def referencedColumnsClaim (schema : TableSchemaE)
    (records : List JsRecord) : List String :=
  schema.columns.filterMap (fun p =>
    if records.any (fun r => (r.map Prod.fst).contains p.1) then some p.1
    else none)

/-- Claim C3 wording: the union of required and referenced columns that
the claim says becomes the INSERT column list. -/
def claimUnionCols (schema : TableSchemaE) (records : List JsRecord) :
    List String :=
  requiredColumnsClaim schema ++ referencedColumnsClaim schema records

/-- Claim C5 wording: the fragments and parameters one criteria entry
emits, by value kind: null or undefined gives IS NULL with no parameter,
an array gives IN with one parameter per element (winning over the
operator form), an operator object gives one fragment per recognized
operator key, and any other scalar gives an equality. -/
def claimEntryFragments (c : String) (v : CritValue) :
    List String × List JsValue :=
  match v with
  | .prim w =>
      if isNullish w then (["(" ++ quoteIdent c ++ " IS NULL)"], [])
      else (["(" ++ quoteIdent c ++ " = ?)"], [w])
  | .arr vs =>
      (["(" ++ quoteIdent c ++ " IN (" ++
          joinWith "," (vs.map (fun _ => "?")) ++ "))"], vs)
  | .opObj o =>
      ((opEntries o).map
         (fun p => "(" ++ quoteIdent c ++ " " ++ p.1 ++ " ?)"),
       (opEntries o).map Prod.snd)

/-- Claim C5 wording: entries are compiled independently in iteration
order, all fragments conjoined by AND, parameters concatenated in
emission order; an empty or absent criteria yields the empty clause and
no parameters. -/
def claimWhereClause (criteria : Option CriteriaE) : String × List JsValue :=
  match criteria with
  | none => ("", [])
  | some entries =>
      let frags := (entries.map (fun p => (claimEntryFragments p.1 p.2).1)).flatten
      let ps := (entries.map (fun p => (claimEntryFragments p.1 p.2).2)).flatten
      if frags.isEmpty then ("", [])
      else ("WHERE " ++ joinWith " AND " frags, ps)

/-- The number of positional placeholders in a piece of SQL text. -/
def qcount (s : String) : Nat := s.data.count '?'

/-- Claim C6 wording: the resolved primary-key set of a table. -/
def claimPrimaryKeySet (schema : TableSchemaE) : List String :=
  match schema.primaryKey with
  | some (.single s) => [s]
  | some (.multi l) => l
  | none =>
      if (schema.columns.map Prod.fst).contains "id" then ["id"] else []

/-- Claim C6 wording, as stated: a column clause is the quoted name, the
type keyword, PRIMARY KEY when resolved into the primary-key set,
AUTOINCREMENT when auto-increment, NOT NULL unless nullable, and UNIQUE
when unique or auto-increment; nothing is said for a nullable column in
place of NOT NULL. -/
def claimColumnClause (schema : TableSchemaE) (c : String) (o : ColumnObj) :
    String :=
  joinWith " "
    (([some (quoteIdent c), some o.type,
       if isPrimaryKeyCol schema c then some "PRIMARY KEY" else none,
       if o.autoIncrement then some "AUTOINCREMENT" else none,
       if o.nullable.getD false then none else some "NOT NULL",
       if o.autoIncrement || o.unique.getD false then some "UNIQUE" else none] :
      List (Option String)).filterMap id)

/-- The DDL text claim C6 describes, built from claimColumnClause. -/
def claimColumnClauses (schema : TableSchemaE) :
    List (String × ColumnDecl) → Except DsError (List String)
  | [] => .ok []
  | p :: rest =>
      match resolveColumnSchema p.2 with
      | .error e => .error e
      | .ok o =>
          match claimColumnClauses schema rest with
          | .error e => .error e
          | .ok tail => .ok (claimColumnClause schema p.1 o :: tail)

/-- The DDL text claim C6 describes, built from claimColumnClause. -/
def claimCreateTableSql (t : String) (schema : TableSchemaE) :
    Except DsError String :=
  match claimColumnClauses schema schema.columns with
  | .error e => .error e
  | .ok defs =>
      .ok ("CREATE TABLE IF NOT EXISTS " ++ quoteIdent t ++ " (" ++
        joinWith ", " defs ++ ")")

/-- The amended column clause: as claim C6, except that a nullable column
emits the explicit NULL keyword the code produces. -/
def amendedColumnClause (schema : TableSchemaE) (c : String) (o : ColumnObj) :
    String :=
  joinWith " "
    (([some (quoteIdent c), some o.type,
       if isPrimaryKeyCol schema c then some "PRIMARY KEY" else none,
       if o.autoIncrement then some "AUTOINCREMENT" else none,
       some (if o.nullable.getD false then "NULL" else "NOT NULL"),
       if o.autoIncrement || o.unique.getD false then some "UNIQUE" else none] :
      List (Option String)).filterMap id)

/-- The amended clause computed from a raw declaration, empty on a
resolution error (never reached under the hypotheses of the theorem that
uses it). -/
def amendedColumnClauseD (schema : TableSchemaE) (c : String)
    (d : ColumnDecl) : String :=
  match resolveColumnSchema d with
  | .ok o => amendedColumnClause schema c o
  | .error _ => ""

/-- A column acceptable to claim C6 as amended: it resolves, its resolved
type is one of the four native keywords, and auto-increment implies
primary-key membership. -/
def columnOkForClaim (schema : TableSchemaE) (c : String) (d : ColumnDecl) :
    Bool :=
  match resolveColumnSchema d with
  | .ok o =>
      isSqliteNativeType o.type &&
        (!o.autoIncrement || isPrimaryKeyCol schema c)
  | .error _ => false

/-- Whether every column of a table resolves to a valid column type. -/
def columnTypesOk (tbl : TableSchemaE) : Bool :=
  tbl.columns.all (fun p =>
    match resolveColumnSchema p.2 with
    | .ok o => isValidColumnType o.type
    | .error _ => false)

/-- The first column of a table that is marked auto-increment without
being in the resolved primary-key set. -/
def firstAutoIncViolation (tbl : TableSchemaE) : Option String :=
  (tbl.columns.find? (fun p =>
    match resolveColumnSchema p.2 with
    | .ok o => o.autoIncrement && !isPrimaryKeyCol tbl p.1
    | .error _ => false)).map Prod.fst

/-- The one-column table of claim C9: a native TEXT column declaring both
a serialize and a parse function. -/
def roundtripSchema (f g : JsValue → JsValue) (c : String) : TableSchemaE :=
  { columns := [(c, .obj { type := "TEXT", serialize := some f,
                           parse := some g })],
    primaryKey := none }

/-! ## Concrete fixtures

A fixed environment and a handful of concrete schemas and inputs used by
the counterexamples and witnesses below. -/

def fixtureEnv : Env :=
  { nowIso := "2024-01-02T03:04:05.000Z",
    freshUuid := "00000000-0000-4000-8000-000000000000" }

/-- The people table of the test suite: auto-increment integer id as the
primary key, a TEXT name, a nullable TEXT birthdate. -/
def peopleSchema : TableSchemaE :=
  { columns := [("id", .obj { type := "INTEGER", autoIncrement := true }),
                ("name", .name "TEXT"),
                ("birthdate", .obj { type := "TEXT", nullable := some true })],
    primaryKey := some (.single "id") }

/-- The people table of the update test suite: an update_timestamp column
alongside id and name. -/
def updatePeopleSchema : TableSchemaE :=
  { columns := [("id", .obj { type := "INTEGER", autoIncrement := true }),
                ("name", .name "TEXT"),
                ("updated_at", .name "update_timestamp")],
    primaryKey := some (.single "id") }

/-- A table with no auto-increment column anywhere. -/
def noAutoIncSchema : TableSchemaE :=
  { columns := [("name", .name "TEXT")], primaryKey := none }

/-- A table whose only column is auto-increment but not in the resolved
primary-key set. -/
def autoIncBadTable : TableSchemaE :=
  { columns := [("n", .obj { type := "INTEGER", autoIncrement := true })],
    primaryKey := some (.single "id") }

/-- An object-form column declaration naming the uuid extended type. -/
def uuidObjectDecl : ColumnObj := { type := "uuid", nullable := some true }

/-- A criteria map exercising every dispatch form of the compiler. -/
def sampleCriteria : CriteriaE :=
  [("a", .prim (.str "x")), ("b", .prim .vnull),
   ("c", .arr [.num 1, .num 2]),
   ("d", .opObj { gt := some (.num 1), lte := some (.num 9) })]

/-- The insert plan the embedding produces for one record with only a
name against the people table. -/
def peopleInsertPlan : InsertPlan :=
  { sql := "INSERT INTO \"people\" (\"id\",\"name\",\"birthdate\") VALUES (?,?,?)",
    paramsPerRecord := [[JsValue.jsUndefined, JsValue.str "foo", JsValue.jsUndefined]] }

/-- The heap after that insert processed through the object store: the
caller record at address 0 untouched, its working copy appended. -/
def heapAfterInsert : Heap :=
  [[("name", JsValue.str "foo")],
   [("id", JsValue.jsUndefined), ("name", JsValue.str "foo"),
    ("birthdate", JsValue.jsUndefined)]]

/-- A serialize function with a true inverse: shift an integer value up
by one. -/
def numShiftSerialize : JsValue → JsValue
  | .num n => .num (n + 1)
  | w => w

/-- The matching parse function: shift an integer value down by one. -/
def numShiftParse : JsValue → JsValue
  | .num n => .num (n - 1)
  | w => w

/-! ## Supporting lemmas -/

theorem processInsertRecords_length (env : Env) (t : String)
    (cols : List String) (hooks : List (String × ColumnObj × ResolvedHook)) :
    ∀ (records : List JsRecord) (rs : List JsRecord),
      processInsertRecords env t cols hooks records = .ok rs →
      rs.length = records.length := by
  intro records
  induction records with
  | nil => intro rs h; cases h; rfl
  | cons r rest ih =>
      intro rs h
      simp only [processInsertRecords] at h
      split at h
      · cases h
      · split at h
        · cases h
        · split at h
          · cases h
          · cases h
            next tail hp =>
            simp [ih tail hp]

theorem getRecordsForInsert_inv (env : Env) (t : String)
    (schema : TableSchemaE) (records : List JsRecord) (prep : InsertPrep)
    (h : getRecordsForInsert env t schema records = .ok prep) :
    prep.columnNames = schema.columns.map Prod.fst ∧
    prep.records.length = records.length := by
  simp only [getRecordsForInsert] at h
  split at h
  · cases h
  · split at h
    · cases h
    · cases h
      next rs hp =>
      exact ⟨rfl, processInsertRecords_length env t _ _ records rs hp⟩

theorem insertPlanOf_inv (env : Env) (t : String) (schema : TableSchemaE)
    (records : List JsRecord) (plan : InsertPlan)
    (h : insertPlanOf env t schema records = .ok plan) :
    ∃ prep, getRecordsForInsert env t schema records = .ok prep ∧
      plan = { sql := insertSqlFor t prep.columnNames,
               paramsPerRecord :=
                 prep.records.map (fun r => prep.columnNames.map (getProp r)) } := by
  simp only [insertPlanOf] at h
  split at h
  · cases h
  · cases h
    next prep hp =>
    exact ⟨prep, hp, rfl⟩

theorem qcount_append (a b : String) :
    qcount (a ++ b) = qcount a + qcount b := by
  simp [qcount, String.data_append, List.count_append]

theorem qcount_quoteIdent (c : String) : qcount (quoteIdent c) = qcount c := by
  have h1 : qcount "\"" = 0 := rfl
  simp [quoteIdent, qcount_append, h1]

theorem qcount_joinWith_sep0 (sep : String) (h : qcount sep = 0)
    (l : List String) : qcount (joinWith sep l) = (l.map qcount).sum := by
  induction l with
  | nil => rfl
  | cons x xs ih =>
      cases xs with
      | nil => simp [joinWith]
      | cons y ys =>
          simp only [joinWith] at ih ⊢
          simp [qcount_append, h, ih]

theorem sum_map_one {α : Type} (l : List α) :
    (l.map (fun _ => (1 : Nat))).sum = l.length := by
  induction l with
  | nil => rfl
  | cons x xs ih => simp [ih]; omega

theorem joinWith_length_pos (sep x : String) (xs : List String)
    (hx : 0 < x.length) : 0 < (joinWith sep (x :: xs)).length := by
  cases xs with
  | nil => simpa [joinWith]
  | cons y ys => simp [joinWith, String.length_append]; omega

theorem qcount_insertSqlFor (t : String) (cols : List String)
    (ht : qcount t = 0) (hcols : ∀ c ∈ cols, qcount c = 0) :
    qcount (insertSqlFor t cols) = cols.length := by
  have hcomma : qcount "," = 0 := rfl
  have hq1 : qcount (joinWith "," (cols.map quoteIdent)) = 0 := by
    rw [qcount_joinWith_sep0 _ hcomma]
    apply List.sum_eq_zero
    intro x hx
    simp only [List.map_map, List.mem_map] at hx
    obtain ⟨c, hc, rfl⟩ := hx
    simp [qcount_quoteIdent, hcols c hc]
  have hq2 : qcount (joinWith "," (cols.map (fun _ => "?"))) = cols.length := by
    rw [qcount_joinWith_sep0 _ hcomma]
    have h2 : (cols.map (fun _ => "?")).map qcount = cols.map (fun _ => 1) := by
      simp only [List.map_map]
      rfl
    rw [h2, sum_map_one]
  have e1 : qcount "INSERT INTO " = 0 := rfl
  have e2 : qcount " (" = 0 := rfl
  have e3 : qcount ") VALUES (" = 0 := rfl
  have e4 : qcount ")" = 0 := rfl
  simp only [insertSqlFor, qcount_append, e1, e2, e3, e4,
    qcount_quoteIdent, ht, hq1, hq2]
  omega

theorem opFoldAppend (c : String) (l : List (String × JsValue))
    (acc : List String × List JsValue) :
    l.foldl (fun a p =>
        (a.1 ++ ["(" ++ quoteIdent c ++ " " ++ p.1 ++ " ?)"], a.2 ++ [p.2]))
      acc =
    (acc.1 ++ l.map (fun p => "(" ++ quoteIdent c ++ " " ++ p.1 ++ " ?)"),
     acc.2 ++ l.map Prod.snd) := by
  induction l generalizing acc with
  | nil => simp
  | cons p rest ih => simp [ih]

theorem critStep_append (c : String) (v : CritValue)
    (acc : List String × List JsValue) :
    critStep c v acc =
      (acc.1 ++ (claimEntryFragments c v).1,
       acc.2 ++ (claimEntryFragments c v).2) := by
  cases v with
  | arr vs => rfl
  | prim w =>
      simp only [critStep, claimEntryFragments]
      by_cases h : isNullish w = true
      · simp [h]
      · simp [h]
  | opObj o =>
      simp only [critStep, claimEntryFragments]
      exact opFoldAppend c (opEntries o) acc

theorem critFold_general (entries : CriteriaE)
    (acc : List String × List JsValue) :
    entries.foldl (fun acc p => critStep p.1 p.2 acc) acc =
      (acc.1 ++
         (entries.map (fun p => (claimEntryFragments p.1 p.2).1)).flatten,
       acc.2 ++
         (entries.map (fun p => (claimEntryFragments p.1 p.2).2)).flatten) := by
  induction entries generalizing acc with
  | nil => simp
  | cons e rest ih =>
      simp only [List.foldl_cons, List.map_cons, List.flatten_cons]
      rw [critStep_append, ih]
      simp

theorem claimFragment_length_pos (c : String) (v : CritValue) :
    ∀ f ∈ (claimEntryFragments c v).1, 0 < f.length := by
  intro f hf
  have pos : ∀ s : String, 0 < ("(" ++ s).length := by
    intro s
    rw [String.length_append]
    have h1 : ("(" : String).length = 1 := rfl
    omega
  cases v with
  | arr vs =>
      simp only [claimEntryFragments, List.mem_singleton] at hf
      subst hf
      rw [show ("(" ++ quoteIdent c ++ " IN (" ++
        joinWith "," (List.map (fun _ => "?") vs) ++ "))") =
        "(" ++ (quoteIdent c ++ " IN (" ++
          joinWith "," (List.map (fun _ => "?") vs) ++ "))") by
        simp [String.append_assoc]]
      exact pos _
  | prim w =>
      by_cases h : isNullish w = true
      · simp [claimEntryFragments, h] at hf
        subst hf
        rw [show ("(" ++ quoteIdent c ++ " IS NULL)") =
          "(" ++ (quoteIdent c ++ " IS NULL)") by simp [String.append_assoc]]
        exact pos _
      · simp [claimEntryFragments, h] at hf
        subst hf
        rw [show ("(" ++ quoteIdent c ++ " = ?)") =
          "(" ++ (quoteIdent c ++ " = ?)") by simp [String.append_assoc]]
        exact pos _
  | opObj o =>
      simp only [claimEntryFragments, List.mem_map] at hf
      obtain ⟨p, hp, rfl⟩ := hf
      rw [show ("(" ++ quoteIdent c ++ " " ++ p.1 ++ " ?)") =
        "(" ++ (quoteIdent c ++ " " ++ p.1 ++ " ?)") by
        simp [String.append_assoc]]
      exact pos _

theorem claimFragment_nil_params (c : String) (v : CritValue)
    (h : (claimEntryFragments c v).1 = []) :
    (claimEntryFragments c v).2 = [] := by
  cases v with
  | arr vs => simp [claimEntryFragments] at h
  | prim w =>
      by_cases hn : isNullish w = true <;> simp [claimEntryFragments, hn] at h
  | opObj o =>
      simp only [claimEntryFragments, List.map_eq_nil_iff] at h ⊢
      simp [h]

theorem c5_equiv (criteria : Option CriteriaE) :
    buildWhereClause criteria = claimWhereClause criteria := by
  cases criteria with
  | none => rfl
  | some entries =>
      simp only [buildWhereClause, buildCriteriaSql, claimWhereClause]
      rw [critFold_general entries ([], [])]
      simp only [List.nil_append]
      cases hf : (entries.map (fun p => (claimEntryFragments p.1 p.2).1)).flatten with
      | nil =>
          simp only [joinWith]
          have hps :
              (entries.map (fun p => (claimEntryFragments p.1 p.2).2)).flatten = [] := by
            rw [List.flatten_eq_nil_iff]
            intro l hl
            simp only [List.mem_map] at hl
            obtain ⟨p, hp, rfl⟩ := hl
            apply claimFragment_nil_params
            have h2 := List.flatten_eq_nil_iff.mp hf
            exact h2 _ (List.mem_map_of_mem _ hp)
          simp [hps]
      | cons f fs =>
          have hfmem : f ∈ (entries.map
              (fun p => (claimEntryFragments p.1 p.2).1)).flatten := by
            rw [hf]; exact List.mem_cons_self f fs
          obtain ⟨l, hl, hfl⟩ := List.mem_flatten.mp hfmem
          obtain ⟨p, hp, rfl⟩ := List.mem_map.mp hl
          have hpos := joinWith_length_pos " AND " f fs
            (claimFragment_length_pos p.1 p.2 f hfl)
          simp [hpos]

theorem optEntryFst (x : Option JsValue) (s : String) (p : String × JsValue)
    (hp : p ∈ (match x with
               | some v => [(s, v)]
               | none => ([] : List (String × JsValue)))) : p.1 = s := by
  cases x with
  | none => simp at hp
  | some v => simp at hp; rw [hp]

theorem opEntries_fst_qcount (o : OpObj) :
    ∀ p ∈ opEntries o, qcount p.1 = 0 := by
  intro p hp
  simp only [opEntries, List.mem_append] at hp
  rcases hp with ((((((h | h) | h) | h) | h) | h) | h) <;>
    rw [optEntryFst _ _ _ h] <;> rfl

theorem opAlign (c : String) (hc : qcount c = 0) :
    ∀ l : List (String × JsValue), (∀ p ∈ l, qcount p.1 = 0) →
    (l.map (fun p =>
        qcount ("(" ++ quoteIdent c ++ " " ++ p.1 ++ " ?)"))).sum = l.length := by
  intro l
  induction l with
  | nil => intro _; rfl
  | cons p rest ih =>
      intro hall
      have e1 : qcount "(" = 0 := rfl
      have e2 : qcount " " = 0 := rfl
      have e3 : qcount " ?)" = 1 := rfl
      have hhead : qcount ("(" ++ quoteIdent c ++ " " ++ p.1 ++ " ?)") = 1 := by
        simp only [qcount_append, qcount_quoteIdent, hc, e1, e2, e3,
          hall p (List.mem_cons_self p rest)]
      rw [List.map_cons, List.sum_cons, hhead,
        ih (fun q hq => hall q (List.mem_cons_of_mem p hq)), List.length_cons]
      omega

theorem entryAlign (c : String) (v : CritValue) (hc : qcount c = 0) :
    ((claimEntryFragments c v).1.map qcount).sum =
      (claimEntryFragments c v).2.length := by
  have e1 : qcount "(" = 0 := rfl
  have e2 : qcount " IS NULL)" = 0 := rfl
  have e3 : qcount " = ?)" = 1 := rfl
  have e4 : qcount " IN (" = 0 := rfl
  have e5 : qcount "))" = 0 := rfl
  have hcomma : qcount "," = 0 := rfl
  cases v with
  | prim w =>
      by_cases h : isNullish w = true <;>
        simp [claimEntryFragments, h, qcount_append, qcount_quoteIdent,
          hc, e1, e2, e3]
  | arr vs =>
      have hjw : qcount (joinWith "," (vs.map (fun _ => "?"))) = vs.length := by
        rw [qcount_joinWith_sep0 _ hcomma]
        have h2 : (vs.map (fun _ => "?")).map qcount = vs.map (fun _ => 1) := by
          simp only [List.map_map]; rfl
        rw [h2, sum_map_one]
      simp only [claimEntryFragments, List.map_cons, List.map_nil,
        List.sum_cons, List.sum_nil, qcount_append, e1, e4, e5,
        qcount_quoteIdent, hc, hjw]
      omega
  | opObj o =>
      simp only [claimEntryFragments, List.map_map, List.length_map]
      exact opAlign c hc (opEntries o) (opEntries_fst_qcount o)

theorem totalAlign (entries : CriteriaE)
    (hnames : ∀ p ∈ entries, qcount p.1 = 0) :
    (((entries.map (fun p => (claimEntryFragments p.1 p.2).1)).flatten.map
        qcount).sum) =
      ((entries.map (fun p => (claimEntryFragments p.1 p.2).2)).flatten).length := by
  induction entries with
  | nil => rfl
  | cons e rest ih =>
      simp only [List.map_cons, List.flatten_cons, List.map_append,
        List.sum_append, List.length_append]
      rw [entryAlign e.1 e.2 (hnames e (List.mem_cons_self e rest)),
        ih (fun q hq => hnames q (List.mem_cons_of_mem e hq))]

theorem asciiUpper_native (s : String) (h : isSqliteNativeType s = true) :
    asciiUpper s = s := by
  simp only [isSqliteNativeType, Bool.or_eq_true, beq_iff_eq] at h
  rcases h with ((h | h) | h) | h <;> subst h <;> rfl

theorem isValidColumnType_of_native (s : String)
    (h : isSqliteNativeType s = true) : isValidColumnType s = true := by
  simp [isValidColumnType, asciiUpper_native s h, h]

theorem pk_matches_claim (schema : TableSchemaE) (c : String)
    (hc : c ∈ schema.columns.map Prod.fst) :
    isPrimaryKeyCol schema c = (claimPrimaryKeySet schema).contains c := by
  cases hpk : schema.primaryKey with
  | none =>
      simp only [isPrimaryKeyCol, claimPrimaryKeySet, hpk]
      by_cases hid : c = "id"
      · subst hid
        simp [List.contains, hc]
      · have h1 : (c == "id") = false := by simp [hid]
        rw [h1]
        split
        · simp [List.contains]
          exact fun h => hid (by simp [h])
        · simp [List.contains]
  | some pk =>
      cases pk with
      | single s =>
          simp only [isPrimaryKeyCol, claimPrimaryKeySet, hpk]
          by_cases h : s = c
          · subst h; simp
          · have h2 : ¬ c = s := fun hh => h hh.symm
            simp [h, h2]
      | multi l => simp [isPrimaryKeyCol, claimPrimaryKeySet, hpk]

theorem columnDefinitionSql_ok_claim (t : String) (schema : TableSchemaE)
    (c : String) (d : ColumnDecl)
    (h : columnOkForClaim schema c d = true) :
    columnDefinitionSql t schema c d = .ok (amendedColumnClauseD schema c d) := by
  simp only [columnOkForClaim] at h
  cases hres : resolveColumnSchema d with
  | error e => rw [hres] at h; cases h
  | ok o =>
      rw [hres] at h
      simp only [Bool.and_eq_true, Bool.or_eq_true] at h
      obtain ⟨hnat, hai⟩ := h
      have hvalid : isValidColumnType o.type = true :=
        isValidColumnType_of_native o.type hnat
      have hnoviol : (o.autoIncrement && !isPrimaryKeyCol schema c) = false := by
        rcases hai with h1 | h1
        · simp at h1; simp [h1]
        · simp [h1]
      simp only [columnDefinitionSql, hres, hvalid, Bool.not_true,
        Bool.false_eq_true, if_false, hnoviol, amendedColumnClauseD,
        amendedColumnClause]

theorem createTableColumnDefs_ok_claim (t : String) (schema : TableSchemaE) :
    ∀ cols : List (String × ColumnDecl),
      (∀ p ∈ cols, columnOkForClaim schema p.1 p.2 = true) →
      createTableColumnDefs t schema cols =
        .ok (cols.map (fun p => amendedColumnClauseD schema p.1 p.2)) := by
  intro cols
  induction cols with
  | nil => intro _; rfl
  | cons p rest ih =>
      intro hall
      simp only [createTableColumnDefs,
        columnDefinitionSql_ok_claim t schema p.1 p.2
          (hall p (List.mem_cons_self p rest)),
        ih (fun q hq => hall q (List.mem_cons_of_mem p hq)), List.map_cons]

theorem columnDefinitionSql_violation (t : String) (tbl : TableSchemaE)
    (c : String) (d : ColumnDecl) (o : ColumnObj)
    (hres : resolveColumnSchema d = .ok o)
    (hvalid : isValidColumnType o.type = true)
    (hviol : (o.autoIncrement && !isPrimaryKeyCol tbl c) = true) :
    columnDefinitionSql t tbl c d =
      .error (.invalidSchema (autoIncErrorMessage c t)) := by
  simp only [columnDefinitionSql, hres, hvalid, Bool.not_true,
    Bool.false_eq_true, if_false, hviol, if_true]

theorem columnDefinitionSql_no_violation (t : String) (tbl : TableSchemaE)
    (c : String) (d : ColumnDecl) (o : ColumnObj)
    (hres : resolveColumnSchema d = .ok o)
    (hvalid : isValidColumnType o.type = true)
    (hviol : (o.autoIncrement && !isPrimaryKeyCol tbl c) = false) :
    ∃ s, columnDefinitionSql t tbl c d = .ok s := by
  simp only [columnDefinitionSql, hres, hvalid, Bool.not_true,
    Bool.false_eq_true, if_false, hviol]
  exact ⟨_, rfl⟩

theorem createTableColumnDefs_first_violation (t : String)
    (tbl : TableSchemaE) :
    ∀ (cols : List (String × ColumnDecl)) (pc : String × ColumnDecl),
      (∀ p ∈ cols,
        (match resolveColumnSchema p.2 with
         | .ok o => isValidColumnType o.type
         | .error _ => false) = true) →
      cols.find? (fun p =>
        match resolveColumnSchema p.2 with
        | .ok o => o.autoIncrement && !isPrimaryKeyCol tbl p.1
        | .error _ => false) = some pc →
      createTableColumnDefs t tbl cols =
        .error (.invalidSchema (autoIncErrorMessage pc.1 t)) := by
  intro cols
  induction cols with
  | nil => intro pc _ hfind; cases hfind
  | cons p rest ih =>
      intro pc hall hfind
      have htype := hall p (List.mem_cons_self p rest)
      cases hres : resolveColumnSchema p.2 with
      | error e => rw [hres] at htype; cases htype
      | ok o =>
          rw [hres] at htype
          rw [List.find?_cons] at hfind
          by_cases hviol : (o.autoIncrement && !isPrimaryKeyCol tbl p.1) = true
          · have hcond :
                (match resolveColumnSchema p.2 with
                 | .ok o => o.autoIncrement && !isPrimaryKeyCol tbl p.1
                 | .error _ => false) = true := by rw [hres]; exact hviol
            rw [hcond] at hfind
            cases hfind
            simp only [createTableColumnDefs,
              columnDefinitionSql_violation t tbl p.1 p.2 o hres htype hviol]
          · have hviolf : (o.autoIncrement && !isPrimaryKeyCol tbl p.1) = false :=
              Bool.not_eq_true _ ▸ Bool.eq_false_iff.mpr hviol
            have hcond :
                (match resolveColumnSchema p.2 with
                 | .ok o => o.autoIncrement && !isPrimaryKeyCol tbl p.1
                 | .error _ => false) = false := by rw [hres]; exact hviolf
            rw [hcond] at hfind
            obtain ⟨s, hs⟩ := columnDefinitionSql_no_violation t tbl p.1 p.2 o
              hres htype hviolf
            simp only [createTableColumnDefs, hs,
              ih pc (fun q hq => hall q (List.mem_cons_of_mem p hq)) hfind]

theorem heapWrite_length (h : Heap) (a : Nat) (r : JsRecord) :
    (heapWrite h a r).length = h.length := by
  induction h generalizing a with
  | nil => rfl
  | cons x rest ih =>
      cases a with
      | zero => rfl
      | succ n => simp [heapWrite, ih]

theorem heapRead_write_ne (h : Heap) (a b : Nat) (r : JsRecord)
    (hne : b ≠ a) : heapRead (heapWrite h a r) b = heapRead h b := by
  induction h generalizing a b with
  | nil => rfl
  | cons x rest ih =>
      cases a with
      | zero =>
          cases b with
          | zero => exact absurd rfl hne
          | succ m => rfl
      | succ n =>
          cases b with
          | zero => rfl
          | succ m => exact ih n m (fun hh => hne (by rw [hh]))

theorem heapRead_append_lt (h ext : Heap) (b : Nat) (hb : b < h.length) :
    heapRead (h ++ ext) b = heapRead h b := by
  induction h generalizing b with
  | nil => cases hb
  | cons x rest ih =>
      cases b with
      | zero => rfl
      | succ m =>
          simp only [List.cons_append, heapRead]
          exact ih m (by simpa using hb)

theorem applyInsertHooksH_frame (env : Env) :
    ∀ (hooks : List (String × ColumnObj × ResolvedHook)) (h h2 : Heap)
      (a : Nat), applyInsertHooksH env hooks h a = .ok h2 →
      (∀ b, b ≠ a → heapRead h2 b = heapRead h b) ∧ h2.length = h.length := by
  intro hooks
  induction hooks with
  | nil =>
      intro h h2 a hrun
      cases hrun
      exact ⟨fun _ _ => rfl, rfl⟩
  | cons trip rest ih =>
      intro h h2 a hrun
      obtain ⟨c, o, rh⟩ := trip
      simp only [applyInsertHooksH] at hrun
      split at hrun
      · cases hrun
      · next r1 heq =>
          obtain ⟨hframe, hlen⟩ := ih (heapWrite h a r1) h2 a hrun
          constructor
          · intro b hb
            rw [hframe b hb, heapRead_write_ne h a b r1 hb]
          · rw [hlen, heapWrite_length]

theorem processInsertRecordsH_frame (env : Env) (t : String)
    (cols : List String) (hooks : List (String × ColumnObj × ResolvedHook)) :
    ∀ (addrs : List Nat) (h : Heap) (out : Heap × List Nat),
      processInsertRecordsH env t cols hooks h addrs = .ok out →
      (∀ b, b < h.length → heapRead out.1 b = heapRead h b) ∧
      h.length ≤ out.1.length := by
  intro addrs
  induction addrs with
  | nil =>
      intro h out hrun
      cases hrun
      exact ⟨fun _ _ => rfl, Nat.le_refl _⟩
  | cons a rest ih =>
      intro h out hrun
      simp only [processInsertRecordsH] at hrun
      split at hrun
      · cases hrun
      · split at hrun
        · cases hrun
        · next h2 hhooks =>
            split at hrun
            · cases hrun
            · next pr hrec =>
                cases hrun
                obtain ⟨hf2, hl2⟩ := applyInsertHooksH_frame env hooks
                  (h ++ [projectRecord cols (heapRead h a)]) h2 h.length hhooks
                obtain ⟨hf3, hl3⟩ := ih h2 pr hrec
                constructor
                · intro b hb
                  have hb2 : b < h2.length := by
                    rw [hl2]
                    simp only [List.length_append, List.length_cons,
                      List.length_nil]
                    omega
                  rw [hf3 b hb2, hf2 b (Nat.ne_of_lt hb),
                    heapRead_append_lt h _ b hb]
                · have h12 : h.length ≤ h2.length := by
                    rw [hl2]
                    simp only [List.length_append, List.length_cons,
                      List.length_nil]
                    omega
                  exact Nat.le_trans h12 hl3

/-! ## The claims -/

/-- C1 (corrected): the runtime delete method performs no caller-error
check at all. For every options value it succeeds, and whenever the where
property is absent (whether or not all is supplied) it compiles to a
full-table DELETE with no WHERE clause. Exclusivity of all and where is
enforced only by the static DeleteOptions type, not by the running code. -/
theorem c1_theorem :
    (∀ (opts : DeleteOptionsE) (t : String),
      ∃ r, deleteBuild opts t = .ok r) ∧
    (∀ (opts : DeleteOptionsE) (t : String), opts.whereCriteria = none →
      deleteBuild opts t = .ok ("DELETE FROM " ++ quoteIdent t, [])) := by
  constructor
  · intro opts t
    unfold deleteBuild
    dsimp only
    split <;> exact ⟨_, rfl⟩
  · intro opts t h
    simp [deleteBuild, h]

/-- C1 counterexample: a delete whose options carry neither a where
criteria nor the all flag does not fail; it produces the full-table
DELETE statement, refuting the claim that such a call errors before any
SQL is issued. -/
theorem c1_counterexample :
    deleteBuild { whereCriteria := none, allFlag := none } "people" =
      .ok ("DELETE FROM \"people\"", []) := rfl

/-- C2 (code bug): getValuesForUpdate iterates only the columns named in
the set object, so the beforeUpdate hook of an update_timestamp column
absent from set never runs and no timestamp is stamped - the update map
for set name comes back without updated_at - while the same hook, had it
run, would have injected the current time, and a caller-supplied value
for the hook-owned column is indeed rejected with UpdateError. The update
test suite of the repository expects the stamp on every update. -/
theorem c2_theorem :
    getValuesForUpdate fixtureEnv updatePeopleSchema
        [("name", JsValue.str "bar")] =
      .ok [("name", JsValue.str "bar")] ∧
    getProp [("name", JsValue.str "bar")] "updated_at" = JsValue.jsUndefined ∧
    getValuesForUpdate fixtureEnv updatePeopleSchema
        [("name", JsValue.str "bar"),
         ("updated_at", JsValue.str "2000-01-05")] =
      .error (.updateFailure
        "Specifying a value for an update_timestamp column is not allowed") ∧
    runHook fixtureEnv .updateTsOnUpdate [("name", JsValue.str "bar")]
        "updated_at" =
      .ok [("name", JsValue.str "bar"),
           ("updated_at", JsValue.str fixtureEnv.nowIso)] :=
  ⟨rfl, rfl, rfl, rfl⟩

/-- C3 (corrected): the fixed column list of a batch insert is the whole
set of schema columns in declaration order - not the union of required
and referenced columns - and the single statement text carries one
positional placeholder per schema column, with every execution supplying
exactly that many parameters. -/
theorem c3_theorem (env : Env) (t : String) (schema : TableSchemaE)
    (records : List JsRecord) (plan : InsertPlan)
    (hplan : insertPlanOf env t schema records = .ok plan)
    (ht : qcount t = 0)
    (hcols : ∀ p ∈ schema.columns, qcount p.1 = 0) :
    plan.sql = insertSqlFor t (schema.columns.map Prod.fst) ∧
    qcount plan.sql = schema.columns.length ∧
    plan.paramsPerRecord.length = records.length ∧
    ∀ ps ∈ plan.paramsPerRecord, ps.length = schema.columns.length := by
  obtain ⟨prep, hprep, rfl⟩ := insertPlanOf_inv env t schema records plan hplan
  obtain ⟨hcn, hlen⟩ := getRecordsForInsert_inv env t schema records prep hprep
  have hcols2 : ∀ c ∈ schema.columns.map Prod.fst, qcount c = 0 := by
    intro c hc
    obtain ⟨p, hp, rfl⟩ := List.mem_map.mp hc
    exact hcols p hp
  refine ⟨by rw [hcn], ?_, ?_, ?_⟩
  · rw [hcn, qcount_insertSqlFor t _ ht hcols2]
    simp
  · simp [hlen]
  · intro ps hps
    simp only [List.mem_map] at hps
    obtain ⟨r, hr, rfl⟩ := hps
    simp [hcn]

/-- C3 witness: the amended statement at the people table with one
record supplying only a name. -/
theorem c3_witness :
    peopleInsertPlan.sql =
      insertSqlFor "people" (peopleSchema.columns.map Prod.fst) ∧
    qcount peopleInsertPlan.sql = peopleSchema.columns.length ∧
    peopleInsertPlan.paramsPerRecord.length =
      ([[("name", JsValue.str "foo")]] : List JsRecord).length ∧
    ∀ ps ∈ peopleInsertPlan.paramsPerRecord,
      ps.length = peopleSchema.columns.length :=
  c3_theorem fixtureEnv "people" peopleSchema [[("name", JsValue.str "foo")]]
    peopleInsertPlan (by decide) (by decide) (by decide)

/-- C3 counterexample: with one record supplying only a name, the
generated column list contains the nullable unreferenced birthdate
column, which the union of required and referenced columns described by
the claim excludes. -/
theorem c3_counterexample :
    getRecordsForInsert fixtureEnv "people" peopleSchema
        [[("name", JsValue.str "foo")]] =
      .ok { records := [[("id", JsValue.jsUndefined), ("name", JsValue.str "foo"),
                         ("birthdate", JsValue.jsUndefined)]],
            columnNames := ["id", "name", "birthdate"] } ∧
    "birthdate" ∈ (["id", "name", "birthdate"] : List String) ∧
    "birthdate" ∉ claimUnionCols peopleSchema [[("name", JsValue.str "foo")]] :=
  ⟨by decide, by decide, by decide⟩

/-- C4 (corrected): the runtime insert result always carries the ids
field - the accumulator is initialised with an empty ids array no matter
what the table schema says - and ids collects exactly the positive
engine-reported lastID values in execution order, while count counts
every successful execution. -/
theorem c4_theorem :
    (∀ lastIDs : List Int,
      runInsertAccumulation lastIDs =
        { count := lastIDs.length,
          ids := some (lastIDs.filter (fun i => decide (i > 0))) }) ∧
    (∀ (env : Env) (t : String) (schema : TableSchemaE)
        (records : List JsRecord) (plan : InsertPlan),
      insertPlanOf env t schema records = .ok plan →
      plan.paramsPerRecord.length = records.length) := by
  constructor
  · have hgen : ∀ (lastIDs : List Int) (count : Nat) (l : List Int),
        lastIDs.foldl insertResultStep { count := count, ids := some l } =
          { count := count + lastIDs.length,
            ids := some (l ++ lastIDs.filter (fun i => decide (i > 0))) } := by
      intro lastIDs
      induction lastIDs with
      | nil => intro count l; simp
      | cons i rest ih =>
          intro count l
          simp only [List.foldl_cons, insertResultStep, List.filter_cons]
          by_cases h : i > 0
          · simp [h, ih, List.append_assoc]
            omega
          · simp [h, ih]
            omega
    intro lastIDs
    have h0 := hgen lastIDs 0 []
    simpa [runInsertAccumulation] using h0
  · intro env t schema records plan h
    obtain ⟨prep, hprep, rfl⟩ := insertPlanOf_inv env t schema records plan h
    obtain ⟨_, hlen⟩ := getRecordsForInsert_inv env t schema records prep hprep
    simp [hlen]

/-- C4 counterexample: a table with no auto-increment column still gets a
result object carrying the ids field (holding the engine-reported row
id), refuting the claim that such an insert returns only a count. -/
theorem c4_counterexample :
    tableHasAutoIncrementColumn noAutoIncSchema = false ∧
    runInsertAccumulation [1] = { count := 1, ids := some [1] } ∧
    (runInsertAccumulation [1]).ids ≠ none :=
  ⟨rfl, rfl, by decide⟩

/-- C5 (confirmed): the compiled WHERE clause equals the clause the claim
describes - entries in iteration order joined by AND, with IS NULL for
null values, IN for arrays (array form winning over the operator form),
one independent fragment per recognized operator key, and equality for
any other scalar - the empty and absent criteria give the empty clause
with no parameters, and the placeholders align one to one, in emission
order, with the returned parameter list. -/
theorem c5_theorem (criteria : CriteriaE)
    (hnames : ∀ p ∈ criteria, qcount p.1 = 0) :
    buildWhereClause (some criteria) = claimWhereClause (some criteria) ∧
    buildWhereClause none = ("", []) ∧
    qcount (buildWhereClause (some criteria)).1 =
      (buildWhereClause (some criteria)).2.length := by
  refine ⟨c5_equiv (some criteria), rfl, ?_⟩
  rw [c5_equiv (some criteria)]
  simp only [claimWhereClause]
  cases hf : (criteria.map (fun p => (claimEntryFragments p.1 p.2).1)).flatten with
  | nil =>
      have hq : qcount "" = 0 := rfl
      simp [hf, hq]
  | cons f fs =>
      have hne : ((f :: fs : List String)).isEmpty = false := rfl
      have q11 : qcount "WHERE " = 0 := rfl
      have q12 : qcount " AND " = 0 := rfl
      simp only [hne, Bool.false_eq_true, if_false, qcount_append, q11,
        qcount_joinWith_sep0 _ q12]
      rw [← hf, totalAlign criteria hnames]
      omega

/-- C5 witness: the equivalence and alignment at a criteria map
exercising a scalar, a null, an array and a two-operator object. -/
theorem c5_witness :
    buildWhereClause (some sampleCriteria) =
      claimWhereClause (some sampleCriteria) ∧
    buildWhereClause none = ("", []) ∧
    qcount (buildWhereClause (some sampleCriteria)).1 =
      (buildWhereClause (some sampleCriteria)).2.length :=
  c5_theorem sampleCriteria (by decide)

/-- C6 (corrected): for every table whose columns resolve to native type
keywords and whose auto-increment columns sit in the resolved primary
key, the generated DDL is the CREATE TABLE IF NOT EXISTS statement built
from one clause per column in declaration order, where each clause is the
quoted name, the type keyword, PRIMARY KEY, AUTOINCREMENT, NOT NULL - or
the explicit NULL keyword when the column is nullable, which the claim
omits - and UNIQUE when unique or auto-increment; the primary-key flag of
every declared column agrees with the resolved primary-key set the claim
describes. -/
theorem c6_theorem (t : String) (schema : TableSchemaE)
    (hok : ∀ p ∈ schema.columns, columnOkForClaim schema p.1 p.2 = true) :
    createTableSql t schema =
      .ok ("CREATE TABLE IF NOT EXISTS " ++ quoteIdent t ++ " (" ++
        joinWith ", " (schema.columns.map
          (fun p => amendedColumnClauseD schema p.1 p.2)) ++ ")") ∧
    ∀ p ∈ schema.columns,
      isPrimaryKeyCol schema p.1 = (claimPrimaryKeySet schema).contains p.1 := by
  constructor
  · simp only [createTableSql,
      createTableColumnDefs_ok_claim t schema schema.columns hok]
  · intro p hp
    exact pk_matches_claim schema p.1 (List.mem_map_of_mem Prod.fst hp)

/-- C6 witness: the amended DDL statement at the people table. -/
theorem c6_witness :
    createTableSql "people" peopleSchema =
      .ok ("CREATE TABLE IF NOT EXISTS " ++ quoteIdent "people" ++ " (" ++
        joinWith ", " (peopleSchema.columns.map
          (fun p => amendedColumnClauseD peopleSchema p.1 p.2)) ++ ")") ∧
    ∀ p ∈ peopleSchema.columns,
      isPrimaryKeyCol peopleSchema p.1 =
        (claimPrimaryKeySet peopleSchema).contains p.1 :=
  c6_theorem "people" peopleSchema (by decide)

/-- C6 counterexample: the nullable birthdate column makes the generated
clause read birthdate TEXT NULL, while the clause built from the claim
wording reads birthdate TEXT, so the produced DDL text differs from the
text the claim describes. -/
theorem c6_counterexample :
    createTableSql "people" peopleSchema =
      .ok ("CREATE TABLE IF NOT EXISTS \"people\" (\"id\" INTEGER PRIMARY KEY AUTOINCREMENT NOT NULL UNIQUE, \"name\" TEXT NOT NULL, \"birthdate\" TEXT NULL)") ∧
    claimCreateTableSql "people" peopleSchema =
      .ok ("CREATE TABLE IF NOT EXISTS \"people\" (\"id\" INTEGER PRIMARY KEY AUTOINCREMENT NOT NULL UNIQUE, \"name\" TEXT NOT NULL, \"birthdate\" TEXT)") ∧
    ("CREATE TABLE IF NOT EXISTS \"people\" (\"id\" INTEGER PRIMARY KEY AUTOINCREMENT NOT NULL UNIQUE, \"name\" TEXT NOT NULL, \"birthdate\" TEXT NULL)" : String) ≠
      "CREATE TABLE IF NOT EXISTS \"people\" (\"id\" INTEGER PRIMARY KEY AUTOINCREMENT NOT NULL UNIQUE, \"name\" TEXT NOT NULL, \"birthdate\" TEXT)" :=
  ⟨by decide, by decide, by decide⟩

/-- C7 (confirmed): when every column type is valid and some column is
auto-increment without being in the resolved primary key, createTable -
and therefore the migration loop - fails with InvalidSchema, and the
message contains both the column name and the table name; constructing a
datastore over the same schema performs no validation at all, it merely
stores the schema with the migrated flag down. -/
theorem c7_theorem (t : String) (tbl : TableSchemaE) (c : String)
    (htypes : columnTypesOk tbl = true)
    (hviol : firstAutoIncViolation tbl = some c) :
    createTableSql t tbl = .error (.invalidSchema (autoIncErrorMessage c t)) ∧
    migrateSchema [(t, tbl)] =
      .error (.invalidSchema (autoIncErrorMessage c t)) ∧
    c.data <:+: (autoIncErrorMessage c t).data ∧
    t.data <:+: (autoIncErrorMessage c t).data ∧
    mkDatastore { tables := [(t, tbl)] } =
      { schema := { tables := [(t, tbl)] }, migrated := false } := by
  have hall : ∀ p ∈ tbl.columns,
      (match resolveColumnSchema p.2 with
       | .ok o => isValidColumnType o.type
       | .error _ => false) = true := by
    rw [columnTypesOk, List.all_eq_true] at htypes
    exact htypes
  obtain ⟨pc, hfind, hfst⟩ : ∃ pc, tbl.columns.find? (fun p =>
      match resolveColumnSchema p.2 with
      | .ok o => o.autoIncrement && !isPrimaryKeyCol tbl p.1
      | .error _ => false) = some pc ∧ pc.1 = c := by
    simp only [firstAutoIncViolation, Option.map_eq_some'] at hviol
    obtain ⟨pc, h1, h2⟩ := hviol
    exact ⟨pc, h1, h2⟩
  have hdefs := createTableColumnDefs_first_violation t tbl tbl.columns pc
    hall hfind
  rw [hfst] at hdefs
  have hcreate : createTableSql t tbl =
      .error (.invalidSchema (autoIncErrorMessage c t)) := by
    simp only [createTableSql, hdefs]
  refine ⟨hcreate, ?_, ?_, ?_, rfl⟩
  · simp only [migrateSchema, hcreate]
  · refine ⟨"Column '".data, ("' in table '" ++ t ++
      "' is marked as auto-incrementing but is not part of the table's primary key.").data, ?_⟩
    simp [autoIncErrorMessage, String.data_append]
  · refine ⟨("Column '" ++ c ++ "' in table '").data,
      "' is marked as auto-incrementing but is not part of the table's primary key.".data, ?_⟩
    simp [autoIncErrorMessage, String.data_append]

/-- C7 witness: the violation at a one-column table whose auto-increment
column is outside the declared primary key. -/
theorem c7_witness :
    createTableSql "t" autoIncBadTable =
      .error (.invalidSchema (autoIncErrorMessage "n" "t")) ∧
    migrateSchema [("t", autoIncBadTable)] =
      .error (.invalidSchema (autoIncErrorMessage "n" "t")) ∧
    ("n" : String).data <:+: (autoIncErrorMessage "n" "t").data ∧
    ("t" : String).data <:+: (autoIncErrorMessage "n" "t").data ∧
    mkDatastore { tables := [("t", autoIncBadTable)] } =
      { schema := { tables := [("t", autoIncBadTable)] },
        migrated := false } :=
  c7_theorem "t" autoIncBadTable "n" (by decide) (by decide)

/-- C8 (corrected): resolveColumnSchema returns every object-form
declaration unchanged, so an object whose type names an extended type
keeps that name as its type, gets no registry lifecycle hook on insert,
and its rows pass through parseRow unchanged when the object itself
declares no parse function; caller-supplied nullable and unique stand
trivially, because nothing of the object is replaced. -/
theorem c8_theorem (o : ColumnObj) (c : String) (v : JsValue)
    (hbi : o.beforeInsert = none) (hser : o.serialize = none)
    (hdv : o.defaultValue = none) (hpar : o.parse = none) :
    resolveColumnSchema (.obj o) = .ok o ∧
    resolveBeforeInsertHook o = none ∧
    parseCell { columns := [(c, .obj o)], primaryKey := none } c v = v := by
  refine ⟨rfl, ?_, ?_⟩
  · simp [resolveBeforeInsertHook, hbi, hdv, hser]
  · simp [parseCell, columnDeclFor, hpar]

/-- C8 witness: the amended statement at an object declaring the uuid
extended type with a nullable override. -/
theorem c8_witness :
    resolveColumnSchema (.obj uuidObjectDecl) = .ok uuidObjectDecl ∧
    resolveBeforeInsertHook uuidObjectDecl = none ∧
    parseCell { columns := [("idc", .obj uuidObjectDecl)],
                primaryKey := none } "idc" (JsValue.str "x") =
      JsValue.str "x" :=
  c8_theorem uuidObjectDecl "idc" (JsValue.str "x") rfl rfl rfl rfl

/-- C8 counterexample: the object form naming the uuid extended type
resolves to itself - its type stays uuid rather than the registry native
TEXT, and no before-insert hook is resolved although the registry entry
carries one - refuting the claim that the registry native type and hooks
are used. -/
theorem c8_counterexample :
    resolveColumnSchema (.obj uuidObjectDecl) = .ok uuidObjectDecl ∧
    uuidObjectDecl.type = "uuid" ∧ uuidTypeDef.type = "TEXT" ∧
    uuidObjectDecl.type ≠ uuidTypeDef.type ∧
    resolveBeforeInsertHook uuidObjectDecl = none ∧
    uuidTypeDef.beforeInsert = some .uuidOnInsert :=
  ⟨rfl, rfl, rfl, by decide, rfl, rfl⟩

/-- C9 (confirmed): a column declaring both serialize and parse stores
the serialized value on insert through the hook pipeline, and selecting
the stored row back through parseRow returns the original value whenever
parse inverts serialize. -/
theorem c9_theorem (f g : JsValue → JsValue) (c : String) (v : JsValue)
    (env : Env) (t : String) (hinv : ∀ x, g (f x) = x) :
    getRecordsForInsert env t (roundtripSchema f g c) [[(c, v)]] =
      .ok { records := [[(c, f v)]], columnNames := [c] } ∧
    parseRow (roundtripSchema f g c) [(c, f v)] = [(c, v)] := by
  constructor
  · have hdbi : defaultBeforeInsert [(c, v)] c
        { type := "TEXT", serialize := some f, parse := some g } =
        [(c, f v)] := by
      cases hn : isNullish v <;>
        simp [defaultBeforeInsert, getProp, setProp, hn]
    simp [roundtripSchema, getRecordsForInsert, buildInsertHooks,
      resolveColumnSchema, resolveBeforeInsertHook, processInsertRecords,
      checkRecordKeys, applyInsertHooks, applyInsertHook, projectRecord,
      getProp, hdbi]
  · simp only [parseRow, parseCell, columnDeclFor, roundtripSchema,
      List.find?_cons, beq_self_eq_true, List.map_cons, List.map_nil]
    simp [hinv v]

/-- C9 witness: the round trip at an integer-shifting serialize and
parse pair that are true inverses. -/
theorem c9_witness :
    getRecordsForInsert fixtureEnv "events"
        (roundtripSchema numShiftSerialize numShiftParse "d")
        [[("d", JsValue.num 5)]] =
      .ok { records := [[("d", numShiftSerialize (JsValue.num 5))]],
            columnNames := ["d"] } ∧
    parseRow (roundtripSchema numShiftSerialize numShiftParse "d")
        [("d", numShiftSerialize (JsValue.num 5))] =
      [("d", JsValue.num 5)] :=
  c9_theorem numShiftSerialize numShiftParse "d" (JsValue.num 5) fixtureEnv
    "events" (by intro x; cases x <;> simp [numShiftSerialize, numShiftParse])

/-- C10 (confirmed): with the object store explicit, getRecordsForInsert
only appends fresh working copies and every hook write targets a fresh
address, so every record the caller passed in - and in fact every object
that existed before the call - reads back unchanged afterwards. -/
theorem c10_theorem (env : Env) (t : String) (schema : TableSchemaE)
    (h : Heap) (addrs : List Nat) (out : Heap × List Nat)
    (hrun : getRecordsForInsertH env t schema h addrs = .ok out) :
    ∀ b, b < h.length → heapRead out.1 b = heapRead h b := by
  simp only [getRecordsForInsertH] at hrun
  split at hrun
  · cases hrun
  · next hooks hhooks =>
    exact (processInsertRecordsH_frame env t (schema.columns.map Prod.fst)
      hooks addrs h out hrun).1

/-- C10 witness: inserting the one caller record held at address 0 of
the heap leaves that record unchanged while the working copy sits at the
fresh address. -/
theorem c10_witness :
    heapRead heapAfterInsert 0 = heapRead [[("name", JsValue.str "foo")]] 0 :=
  c10_theorem fixtureEnv "people" peopleSchema [[("name", JsValue.str "foo")]]
    [0] (heapAfterInsert, [1]) (by decide) 0 (by decide)

end TsSqliteDatastore
